import Mathlib

/-!
Shallow embedding of `crypto-ifttt-alerts.py` (Somentus/crypto-ifttt-alerts).

Prices are modelled as rationals (`ℚ`).  Python exceptions are modelled by an
explicit error type; fallible functions return `Except PyExc α`.  File contents
are modelled as the list of raw line strings (with their trailing newline, as
Python file iteration yields them).  The side effects of a `check_xbt` run
(writing the previous-price file, sending the notification, and — in
`PriceRule.delete` — rewriting the rules file) are modelled as an ordered list
of events, so that statements about partially executed runs (an error midway)
can be made by applying only a prefix of the event list.
-/

/-- The Python exceptions this script can raise. -/
inductive PyExc where
  | valueError (msg : String)
  | indexError
  | typeError
  deriving DecidableEq, Repr

deriving instance DecidableEq for Except

set_option allowUnsafeReducibility true in
attribute [semireducible] Rat.sub Rat.add Rat.mul Rat.div Rat.neg Rat.inv

/-- Python built-in `abs` on numbers. -/
def pyAbs (q : ℚ) : ℚ := if q < 0 then -q else q

/-- Removing trailing whitespace from a list of characters. -/
def stripTrailing (l : List Char) : List Char :=
  (l.reverse.dropWhile Char.isWhitespace).reverse

/-- Python `str.strip()`: remove leading and trailing whitespace. -/
def pyStrip (l : List Char) : List Char :=
  stripTrailing (l.dropWhile Char.isWhitespace)

/-- Numeric value of a string of decimal digits (most significant first). -/
def digitsVal (l : List Char) : Nat :=
  l.foldl (fun n c => 10 * n + (c.toNat - Char.toNat '0')) 0

/-- Python `float(s)` restricted to the strings that actually reach it in
`parse_line`: by construction of `re.sub(r'[^\d]', '', ...)` the argument
consists of decimal digits only (possibly empty).  `float('')` raises a
`ValueError` (never a `TypeError`, since the argument is a `str`). -/
def pyFloatDigits (l : List Char) : Except PyExc ℚ :=
  if l = [] then .error (.valueError "could not convert string to float")
  else if l.all Char.isDigit then .ok (digitsVal l : ℚ)
  else .error (.valueError "could not convert string to float")

/-- A parsed price rule: `original_line` is the raw config line, the operator
symbol is `>` or `<` for parsed rules, and the threshold is the parsed price. -/
structure PriceRule where
  original_line : String
  operator_symbol : Char
  threshold : ℚ
  deriving DecidableEq, Repr

/-- `PriceRule.parse_line` (together with `__init__`, which stores the raw
line): strip the line, take the first character as the operator symbol
(`line[0]` raises `IndexError` on an empty string), strip all non-digit
characters from the remainder, validate the operator symbol, convert the digit
string with `float` — where only a `TypeError` would be turned into the custom
`ValueError('Line must contain a valid price.')`. -/
def parse_line (line : String) : Except PyExc PriceRule :=
  match pyStrip line.data with
  | [] => .error .indexError
  | op :: rest =>
    let thresholdDigits := (pyStrip rest).filter Char.isDigit
    if ¬ (op = '>' ∨ op = '<') then
      .error (.valueError "Line must start with > or <.")
    else
      match pyFloatDigits thresholdDigits with
      | .error .typeError => .error (.valueError "Line must contain a valid price.")
      | .error e => .error e
      | .ok v => .ok ⟨line, op, v⟩

/-- `PriceRule.matches`: dispatch through `OPERATOR_MAP` on the stored operator
symbol (`>` is `operator.gt`, `<` is `operator.lt`; no other symbol is ever
stored by `parse_line`). -/
def PriceRule.matches (r : PriceRule) (value : ℚ) : Bool :=
  if r.operator_symbol = '>' then decide (value > r.threshold)
  else if r.operator_symbol = '<' then decide (value < r.threshold)
  else false

/-- The copy loop inside `PriceRule.delete`: copy every line of the config file
except those equal to the rule's original line, in order, into `new_lines`. -/
def deleteLoop (orig : String) : List String → List String → List String
  | new_lines, [] => new_lines
  | new_lines, line :: rest =>
    if line = orig then deleteLoop orig new_lines rest
    else deleteLoop orig (new_lines ++ [line]) rest

/-- `PriceRule.delete`: read the config file, drop every line equal to
`self.original_line`, and write the remaining lines back verbatim
(`'{0}'.format(line)` is the identity on the line). -/
def PriceRule.deleteLines (r : PriceRule) (lines : List String) : List String :=
  deleteLoop r.original_line [] lines

/-- `safe_distance`: true iff the absolute difference exceeds 250. -/
def safe_distance (price1 price2 : ℚ) : Bool :=
  if pyAbs (price1 - price2) > 250 then true else false

/-- `load_price_rules`: parse every line of the rules file, in order; the first
parse failure aborts the whole run. -/
def load_price_rules (lines : List String) : Except PyExc (List PriceRule) :=
  lines.mapM parse_line

/-- The observable side effects of a run, in execution order.  `deleteLine` is
the rewrite performed by `PriceRule.delete`; `check_xbt` never emits it. -/
inductive Event where
  | save (price : ℚ)
  | notify (rule : PriceRule) (price : ℚ)
  | deleteLine (line : String)
  deriving DecidableEq, Repr

/-- The rule loop of `check_xbt`: on the first rule whose condition
`rule.matches(xbt_price) and safe_distance(xbt_price, xbt_previous_price)`
holds, save the current price, notify, and break. -/
def runRulesEvents (xbt_price xbt_previous_price : ℚ) : List PriceRule → List Event
  | [] => []
  | rule :: rest =>
    if rule.matches xbt_price && safe_distance xbt_price xbt_previous_price then
      [Event.save xbt_price, Event.notify rule xbt_price]
    else runRulesEvents xbt_price xbt_previous_price rest

/-- `check_xbt`, given the already-fetched current price and the already-read
previous price: load the rules (propagating parse errors) and run the loop,
returning the events of the run in execution order. -/
def check_xbt (rulesLines : List String) (xbt_price xbt_previous_price : ℚ) :
    Except PyExc (List Event) :=
  (load_price_rules rulesLines).map (runRulesEvents xbt_price xbt_previous_price)

/-- Content of the previous-price file after executing a (prefix of a) run's
events, starting from previous value `previous`. -/
def persistedAfter (previous : ℚ) (events : List Event) : ℚ :=
  events.foldl (fun acc e => match e with | .save p => p | _ => acc) previous

/-- Content of the rules file after executing a (prefix of a) run's events. -/
def rulesFileAfter (lines : List String) (events : List Event) : List String :=
  events.foldl (fun acc e =>
    match e with
    | .deleteLine l => deleteLoop l [] acc
    | _ => acc) lines

/-- Is an event the write of the previous-price file? -/
def isSave : Event → Bool
  | .save _ => true
  | _ => false

/-- Is an event the sending of a notification? -/
def isNotify : Event → Bool
  | .notify _ _ => true
  | _ => false

/-- Did a parse attempt fail with a `ValueError` (of any message)? -/
def isValueErrorResult : Except PyExc PriceRule → Bool
  | .error (.valueError _) => true
  | _ => false

/-- Did a parse attempt fail with the custom validation message
`'Line must contain a valid price.'`? -/
def hasInvalidPriceMsg : Except PyExc PriceRule → Bool
  | .error (.valueError m) => m == "Line must contain a valid price."
  | _ => false

/-- Modelled from the spec: the evolved threshold-crossing detector
(spec §4.3, `computeThreshold`) belongs to a later revision of the script that
is not present under src/.  Per the spec: if the current price exceeds the
previous one, the breached threshold is the current price rounded down to the
nearest 1000 and the word is "above"; if it is below, the threshold is the
next 1000 above the current price and the word is "below". -/
def computeThreshold (current previous : ℚ) : ℚ × String :=
  if current > previous then (1000 * ((⌊current / 1000⌋ : ℤ) : ℚ), "above")
  else (1000 * ((⌈current / 1000⌉ : ℤ) : ℚ), "below")

example : parse_line ">40000\n" = .ok ⟨">40000\n", '>', 40000⟩ := by decide
example : parse_line "<1.5" = .ok ⟨"<1.5", '<', 15⟩ := by decide
example : parse_line "" = .error .indexError := by decide
example : parse_line " x 3" = .error (.valueError "Line must start with > or <.") := by decide
example : parse_line ">" = .error (.valueError "could not convert string to float") := by decide
example : safe_distance 43250 43000 = false := by decide
example : safe_distance 43251 43000 = true := by decide
example : check_xbt [">40000\n"] 40251 40000 =
    .ok [Event.save 40251, Event.notify ⟨">40000\n", '>', 40000⟩ 40251] := by decide
example : check_xbt [">40000\n"] 40250 40000 = .ok [] := by decide

lemma pyAbs_eq_abs (q : ℚ) : pyAbs q = |q| := by
  unfold pyAbs
  by_cases h : q < 0
  · rw [if_pos h, abs_of_neg h]
  · rw [if_neg h, abs_of_nonneg (not_lt.mp h)]

lemma ws_not_digit {c : Char} (h : c.isWhitespace = true) : c.isDigit = false := by
  simp only [Char.isWhitespace, Bool.or_eq_true, decide_eq_true_eq] at h
  rcases h with ((h | h) | h) | h <;> subst h <;> decide

lemma filter_isDigit_dropWhile (l : List Char) :
    (l.dropWhile Char.isWhitespace).filter Char.isDigit = l.filter Char.isDigit := by
  induction l with
  | nil => rfl
  | cons a l ih =>
    rw [List.dropWhile_cons]
    by_cases h : a.isWhitespace = true
    · rw [if_pos h, ih, List.filter_cons, if_neg (by simp [ws_not_digit h])]
    · rw [if_neg h]

lemma filter_isDigit_stripTrailing (l : List Char) :
    (stripTrailing l).filter Char.isDigit = l.filter Char.isDigit := by
  unfold stripTrailing
  rw [List.filter_reverse, filter_isDigit_dropWhile, List.filter_reverse,
    List.reverse_reverse]

lemma filter_isDigit_pyStrip (l : List Char) :
    (pyStrip l).filter Char.isDigit = l.filter Char.isDigit := by
  unfold pyStrip
  rw [filter_isDigit_stripTrailing, filter_isDigit_dropWhile]

lemma stripTrailing_cons_of_not_ws {op : Char} (h : op.isWhitespace = false)
    (rest : List Char) : stripTrailing (op :: rest) = op :: stripTrailing rest := by
  unfold stripTrailing
  rw [List.reverse_cons, List.dropWhile_append]
  by_cases hd : (rest.reverse.dropWhile Char.isWhitespace).isEmpty
  · rw [if_pos hd, List.dropWhile_cons, if_neg (by simp [h])]
    rw [List.isEmpty_iff] at hd
    rw [hd]
    rfl
  · rw [if_neg hd, List.reverse_append]
    rfl

lemma pyStrip_cons_of_not_ws {op : Char} (h : op.isWhitespace = false)
    (rest : List Char) : pyStrip (op :: rest) = op :: stripTrailing rest := by
  unfold pyStrip
  rw [List.dropWhile_cons, if_neg (by simp [h])]
  exact stripTrailing_cons_of_not_ws h rest

lemma parse_line_nil (line : String) (h : pyStrip line.data = []) :
    parse_line line = .error .indexError := by
  unfold parse_line
  rw [h]

lemma parse_line_cons (line : String) (op : Char) (rest : List Char)
    (h : pyStrip line.data = op :: rest) :
    parse_line line =
      if ¬ (op = '>' ∨ op = '<') then
        .error (.valueError "Line must start with > or <.")
      else
        match pyFloatDigits ((pyStrip rest).filter Char.isDigit) with
        | .error .typeError => .error (.valueError "Line must contain a valid price.")
        | .error e => .error e
        | .ok v => .ok ⟨line, op, v⟩ := by
  unfold parse_line
  rw [h]

lemma deleteLoop_eq_filter (orig : String) (l acc : List String) :
    deleteLoop orig acc l = acc ++ l.filter (fun x => !(x == orig)) := by
  induction l generalizing acc with
  | nil => simp [deleteLoop]
  | cons a l ih =>
    by_cases h : a = orig
    · subst h
      rw [deleteLoop, if_pos rfl, ih, List.filter_cons, if_neg (by simp)]
    · rw [deleteLoop, if_neg h, ih, List.filter_cons, if_pos (by simp [h])]
      simp

lemma safe_distance_self (p : ℚ) : safe_distance p p = false := by
  simp [safe_distance, pyAbs]

lemma runRulesEvents_nil_of_not_safe {price prev : ℚ}
    (h : safe_distance price prev = false) (rules : List PriceRule) :
    runRulesEvents price prev rules = [] := by
  induction rules with
  | nil => rfl
  | cons r rs ih => simpa [runRulesEvents, h] using ih

lemma runRulesEvents_eq (price prev : ℚ) (rules : List PriceRule) :
    runRulesEvents price prev rules =
      if safe_distance price prev = true then
        match rules.find? (fun r => r.matches price) with
        | some r => [Event.save price, Event.notify r price]
        | none => []
      else [] := by
  by_cases hs : safe_distance price prev = true
  · rw [if_pos hs]
    induction rules with
    | nil => rfl
    | cons r rs ih =>
      by_cases hm : r.matches price = true
      · simp [runRulesEvents, List.find?_cons, hm, hs]
      · simp [runRulesEvents, List.find?_cons, hm, hs, ih]
  · rw [if_neg hs]
    exact runRulesEvents_nil_of_not_safe (Bool.not_eq_true _ ▸ hs) rules

lemma check_xbt_ok (lines : List String) (price prev : ℚ) (rules : List PriceRule)
    (h : load_price_rules lines = .ok rules) :
    check_xbt lines price prev = .ok (runRulesEvents price prev rules) := by
  unfold check_xbt
  rw [h]
  rfl

lemma exists_rules_of_check_ok {lines : List String} {price prev : ℚ}
    {evs : List Event} (h : check_xbt lines price prev = .ok evs) :
    ∃ rules, load_price_rules lines = .ok rules
      ∧ evs = runRulesEvents price prev rules := by
  cases hl : load_price_rules lines with
  | error e =>
    rw [check_xbt, hl] at h
    simp [Except.map] at h
  | ok rules =>
    rw [check_xbt_ok lines price prev rules hl] at h
    injection h with h
    exact ⟨rules, rfl, h.symm⟩

/-- Claim C5, counterexample: contrary to the first conjunct of the claim,
`safe_distance 43250 43000` returns `false` — the difference is exactly 250 and
the comparison is a strict greater-than. -/
theorem C5_cex : safe_distance 43250 43000 = false := by decide

/-- Claim C5 (amended): `safe_distance(43250, 43000)` returns `false` (the
difference is exactly 250 and the condition is strict), `safe_distance(43100,
43000)` returns `false`, `safe_distance(43251, 43000)` returns `true`, and for
every pair of prices whose absolute difference is exactly 250, `safe_distance`
returns `false`. -/
theorem C5_thm :
    (∀ p1 p2 : ℚ, |p1 - p2| = 250 → safe_distance p1 p2 = false)
    ∧ safe_distance 43100 43000 = false ∧ safe_distance 43251 43000 = true := by
  refine ⟨?_, by decide, by decide⟩
  intro p1 p2 h
  rw [safe_distance, pyAbs_eq_abs, h, if_neg (by norm_num)]

/-- Claim C5, witness: the amended theorem applied at the pair (43250, 43000),
whose absolute difference is exactly 250. -/
theorem C5_wit : safe_distance 43250 43000 = false ∧ safe_distance 43100 43000 = false :=
  ⟨C5_thm.1 43250 43000 (by norm_num), C5_thm.2.1⟩

/-- Claim C6, counterexample: for the empty line (and a whitespace-only line),
`parse_line` fails with `IndexError` (from `line[0]`), not with a
`ValueError`, contrary to the claim. -/
theorem C6_cex :
    parse_line "" = .error .indexError
    ∧ parse_line " " = .error .indexError
    ∧ isValueErrorResult (parse_line "") = false :=
  ⟨by decide, by decide, by decide⟩

/-- Claim C6 (amended): for every line whose stripped form is nonempty and does
not start with `>` or `<`, parsing fails with
`ValueError('Line must start with > or <.')`; for a line that is empty or
whitespace-only (stripped form empty), parsing instead fails with `IndexError`
raised by the `line[0]` subscript. -/
theorem C6_thm :
    (∀ line : String, pyStrip line.data = [] → parse_line line = .error .indexError)
    ∧ (∀ (line : String) (op : Char) (rest : List Char),
        pyStrip line.data = op :: rest → ¬ op = '>' → ¬ op = '<' →
        parse_line line = .error (.valueError "Line must start with > or <.")) := by
  refine ⟨fun line h => parse_line_nil line h, ?_⟩
  intro line op rest h h1 h2
  rw [parse_line_cons line op rest h, if_pos (not_or.mpr ⟨h1, h2⟩)]

/-- Claim C6, witness: the amended theorem applied to a whitespace-only line and
to the line `"abc"`. -/
theorem C6_wit :
    parse_line " \n" = .error .indexError
    ∧ parse_line "abc" = .error (.valueError "Line must start with > or <.") :=
  ⟨C6_thm.1 " \n" (by decide),
    C6_thm.2 "abc" 'a' ['b', 'c'] (by decide) (by decide) (by decide)⟩

/-- Claim C9: the `except TypeError` branch of `parse_line` is unreachable —
no input string ever produces the custom
`ValueError('Line must contain a valid price.')`; and for a line whose
remainder contains no digit, the uncaught `ValueError` of `float('')`
propagates instead (shown at the input `">"`). -/
theorem C9_thm :
    (∀ line : String, hasInvalidPriceMsg (parse_line line) = false)
    ∧ parse_line ">" = .error (.valueError "could not convert string to float") := by
  refine ⟨?_, by decide⟩
  intro line
  rcases h : pyStrip line.data with _ | ⟨op, rest⟩
  · rw [parse_line_nil line h]
    rfl
  · rw [parse_line_cons line op rest h]
    by_cases hop : op = '>' ∨ op = '<'
    · rw [if_neg (not_not_intro hop), pyFloatDigits]
      by_cases h0 : (pyStrip rest).filter Char.isDigit = []
      · rw [if_pos h0]
        rfl
      · rw [if_neg h0]
        by_cases hall : ((pyStrip rest).filter Char.isDigit).all Char.isDigit = true
        · rw [if_pos hall]
          rfl
        · rw [if_neg hall]
          rfl
    · rw [if_pos hop]
      decide

/-- Claim C10: `PriceRule.delete` rewrites the rules file to exactly the
original sequence of lines with every line equal to `self.original_line`
removed, preserving all other lines verbatim and in their original relative
order (the rewrite is precisely a filter). -/
theorem C10_thm (r : PriceRule) (lines : List String) :
    r.deleteLines lines = lines.filter (fun l => !(l == r.original_line)) := by
  unfold PriceRule.deleteLines
  simpa using deleteLoop_eq_filter r.original_line lines []

/-- Claim C1, counterexample: in a firing run the save event precedes the
notify event, so an error raised while sending the notification (after the
events strictly before it have executed, i.e. after `take 1`) leaves the
persisted price already changed from 40000 to 40251 — contradicting the claim
that the persisted price is updated only after a successful notification. -/
theorem C1_cex :
    check_xbt [">40000\n"] 40251 40000 =
      .ok [Event.save 40251, Event.notify ⟨">40000\n", '>', 40000⟩ 40251]
    ∧ persistedAfter 40000
        ([Event.save 40251, Event.notify ⟨">40000\n", '>', 40000⟩ 40251].take 1) = 40251
    ∧ ¬ (40251 : ℚ) = 40000 :=
  ⟨by decide, by decide, by decide⟩

/-- Claim C1 (amended): the persisted price is updated before the notification
is sent, not after.  An error raised before the save step leaves the persisted
price unchanged; if no rule fires the persisted price is unchanged; and in a
firing run the events are exactly save-then-notify, so an error raised during
the notification (after the save executed) leaves the persisted price already
equal to the current price. -/
theorem C1_thm (lines : List String) (price prev : ℚ) (evs : List Event)
    (h : check_xbt lines price prev = .ok evs) :
    persistedAfter prev (evs.take 0) = prev
    ∧ (evs = [] → persistedAfter prev evs = prev)
    ∧ (¬ evs = [] → ∃ r, evs = [Event.save price, Event.notify r price]
        ∧ persistedAfter prev (evs.take 1) = price) := by
  obtain ⟨rules, -, hevs⟩ := exists_rules_of_check_ok h
  rw [runRulesEvents_eq] at hevs
  refine ⟨rfl, fun he => by rw [he]; rfl, ?_⟩
  intro hne
  by_cases hs : safe_distance price prev = true
  · rw [if_pos hs] at hevs
    cases hf : rules.find? (fun r => r.matches price) with
    | none =>
      rw [hf] at hevs
      exact absurd hevs hne
    | some r =>
      rw [hf] at hevs
      exact ⟨r, hevs, by rw [hevs]; rfl⟩
  · rw [if_neg hs] at hevs
    exact absurd hevs hne

/-- Claim C1, witness: the amended theorem instantiated at a firing run
(rules file `">40000\n"`, previous price 40000, current price 40251). -/
theorem C1_wit :
    ∃ r, [Event.save (40251 : ℚ), Event.notify ⟨">40000\n", '>', 40000⟩ 40251]
        = [Event.save 40251, Event.notify r 40251]
      ∧ persistedAfter 40000
          ([Event.save (40251 : ℚ),
            Event.notify ⟨">40000\n", '>', 40000⟩ 40251].take 1) = 40251 :=
  (C1_thm [">40000\n"] 40251 40000
      [Event.save 40251, Event.notify ⟨">40000\n", '>', 40000⟩ 40251]
      (by decide)).2.2 (by decide)

/-- Claim C2, counterexample: a run in which a rule fires (a notification event
occurs) leaves the rules file unchanged — the matched line `">40000\n"` is
still present after the run, because `check_xbt` never calls
`PriceRule.delete`. -/
theorem C2_cex :
    check_xbt [">40000\n"] 40251 40000 =
      .ok [Event.save 40251, Event.notify ⟨">40000\n", '>', 40000⟩ 40251]
    ∧ rulesFileAfter [">40000\n"]
        [Event.save 40251, Event.notify ⟨">40000\n", '>', 40000⟩ 40251] = [">40000\n"]
    ∧ ">40000\n" ∈ rulesFileAfter [">40000\n"]
        [Event.save 40251, Event.notify ⟨">40000\n", '>', 40000⟩ 40251] :=
  ⟨by decide, by decide, by decide⟩

/-- Claim C2 (amended): when a rule fires, the rules file is not modified —
`check_xbt` never invokes `PriceRule.delete`, so the matched line remains in
the file.  Re-running `check_xbt` on the resulting state with the same current
price nevertheless fires nothing, because the persisted price was updated to
the current price and the distance condition `|price - price| > 250` fails. -/
theorem C2_thm (lines : List String) (price prev : ℚ) (evs : List Event)
    (h : check_xbt lines price prev = .ok evs) :
    rulesFileAfter lines evs = lines
    ∧ (¬ evs = [] → check_xbt lines price (persistedAfter prev evs) = .ok []) := by
  obtain ⟨rules, hr, hevs⟩ := exists_rules_of_check_ok h
  rw [runRulesEvents_eq] at hevs
  have hshape : evs = [] ∨ ∃ r, evs = [Event.save price, Event.notify r price] := by
    by_cases hs : safe_distance price prev = true
    · rw [if_pos hs] at hevs
      cases hf : rules.find? (fun r => r.matches price) with
      | none => rw [hf] at hevs; exact Or.inl hevs
      | some r => rw [hf] at hevs; exact Or.inr ⟨r, hevs⟩
    · rw [if_neg hs] at hevs
      exact Or.inl hevs
  constructor
  · rcases hshape with he | ⟨r, he⟩ <;> rw [he] <;> rfl
  · intro hne
    rcases hshape with he | ⟨r, he⟩
    · exact absurd he hne
    · rw [he]
      have hp : persistedAfter prev [Event.save price, Event.notify r price] = price := rfl
      rw [hp, check_xbt_ok lines price price rules hr,
        runRulesEvents_nil_of_not_safe (safe_distance_self price) rules]

/-- Claim C2, witness: the amended theorem instantiated at a firing run; the
re-run with the persisted price resulting from the first run fires nothing. -/
theorem C2_wit :
    check_xbt [">40000\n"] 40251
      (persistedAfter 40000
        [Event.save 40251, Event.notify ⟨">40000\n", '>', 40000⟩ 40251]) = .ok [] :=
  (C2_thm [">40000\n"] 40251 40000
      [Event.save 40251, Event.notify ⟨">40000\n", '>', 40000⟩ 40251]
      (by decide)).2 (by decide)

/-- Claim C3, counterexample: for the line `"<1.5"` — which matches
`^[<>]\s*\d+(\.\d+)?$` — parsing succeeds but yields threshold 15, not the
number 1.5 written on the line: the decimal point is stripped as a non-digit
character by `re.sub(r'[^\d]', '', ...)`. -/
theorem C3_cex :
    parse_line "<1.5" = .ok ⟨"<1.5", '<', 15⟩ ∧ ¬ ((15 : ℚ) = 3 / 2) :=
  ⟨by decide, by decide⟩

/-- Claim C3 (amended): for every line consisting of `>` or `<` followed by any
characters whose digit subsequence is nonempty, parsing succeeds and yields the
operator named by the first character and a threshold equal to the number
formed by concatenating the digit characters of the remainder in order — which
equals the number written on the line exactly when the numeric part is an
integer (a decimal point is noise and is stripped, so `"<1.5"` yields 15). -/
theorem C3_thm (op : Char) (rest : List Char)
    (hop : op = '>' ∨ op = '<') (hne : rest.filter Char.isDigit ≠ []) :
    parse_line (String.mk (op :: rest)) =
      .ok ⟨String.mk (op :: rest), op, (digitsVal (rest.filter Char.isDigit) : ℚ)⟩ := by
  have hws : op.isWhitespace = false := by
    rcases hop with h | h <;> subst h <;> decide
  have hstrip : pyStrip (String.mk (op :: rest)).data = op :: stripTrailing rest :=
    pyStrip_cons_of_not_ws hws rest
  rw [parse_line_cons (String.mk (op :: rest)) op (stripTrailing rest) hstrip,
    if_neg (not_not_intro hop)]
  have hfd : (pyStrip (stripTrailing rest)).filter Char.isDigit
      = rest.filter Char.isDigit := by
    rw [filter_isDigit_pyStrip, filter_isDigit_stripTrailing]
  have hall : (rest.filter Char.isDigit).all Char.isDigit = true := by
    simp only [List.all_eq_true]
    intro x hx
    exact (List.mem_filter.mp hx).2
  rw [hfd, pyFloatDigits, if_neg hne, if_pos hall]

/-- Claim C3, witness: the amended theorem applied to the line `"<1x5"`, whose
digit subsequence is `15`. -/
theorem C3_wit :
    parse_line (String.mk ['<', '1', 'x', '5']) =
      .ok ⟨String.mk ['<', '1', 'x', '5'], '<',
        (digitsVal (['1', 'x', '5'].filter Char.isDigit) : ℚ)⟩ :=
  C3_thm '<' ['1', 'x', '5'] (Or.inr rfl) (by decide)

/-- Claim C4: a notification is sent iff the distance condition holds and some
loaded rule matches the current price; the rule notified is the first matching
rule in file order; with previous price 40000 and current price 40251 the run
fires and persists 40251; with a distance of exactly 250 nothing fires. -/
theorem C4_thm (lines : List String) (price prev : ℚ) (rules : List PriceRule)
    (h : load_price_rules lines = .ok rules) :
    ((∃ evs r p, check_xbt lines price prev = .ok evs ∧ Event.notify r p ∈ evs)
      ↔ (safe_distance price prev = true ∧ ∃ r ∈ rules, r.matches price = true))
    ∧ (safe_distance price prev = true →
        check_xbt lines price prev = .ok
          (match rules.find? (fun r => r.matches price) with
            | some r => [Event.save price, Event.notify r price]
            | none => []))
    ∧ check_xbt [">40000\n"] 40251 40000 =
        .ok [Event.save 40251, Event.notify ⟨">40000\n", '>', 40000⟩ 40251]
    ∧ persistedAfter 40000
        [Event.save 40251, Event.notify ⟨">40000\n", '>', 40000⟩ 40251] = 40251
    ∧ check_xbt [">40000\n"] 40250 40000 = .ok [] := by
  have hrun : check_xbt lines price prev = .ok (runRulesEvents price prev rules) :=
    check_xbt_ok lines price prev rules h
  refine ⟨⟨?_, ?_⟩, ?_, by decide, by decide, by decide⟩
  · rintro ⟨evs, r, p, hevs, hmem⟩
    rw [hrun] at hevs
    injection hevs with hevs
    rw [← hevs, runRulesEvents_eq] at hmem
    by_cases hs : safe_distance price prev = true
    · rw [if_pos hs] at hmem
      refine ⟨hs, ?_⟩
      cases hf : rules.find? (fun r0 => r0.matches price) with
      | none =>
        rw [hf] at hmem
        simp at hmem
      | some r0 =>
        have hp := List.find?_some (p := fun r1 : PriceRule => r1.matches price) hf
        exact ⟨r0, List.mem_of_find?_eq_some hf, hp⟩
    · rw [if_neg hs] at hmem
      simp at hmem
  · rintro ⟨hs, r, hmem, hmatch⟩
    cases hf : rules.find? (fun r0 => r0.matches price) with
    | none =>
      rw [List.find?_eq_none] at hf
      exact absurd hmatch (hf r hmem)
    | some r0 =>
      refine ⟨[Event.save price, Event.notify r0 price], r0, price, ?_, by simp⟩
      rw [hrun, runRulesEvents_eq, if_pos hs, hf]
  · intro hs
    rw [hrun, runRulesEvents_eq, if_pos hs]

/-- Claim C4, witness: the theorem instantiated at the rules file
`">40000\n"`, previous price 40000, current price 40251. -/
theorem C4_wit :
    load_price_rules [">40000\n"] = .ok [⟨">40000\n", '>', 40000⟩]
    ∧ check_xbt [">40000\n"] 40251 40000 =
        .ok [Event.save 40251, Event.notify ⟨">40000\n", '>', 40000⟩ 40251] :=
  ⟨by decide,
    (C4_thm [">40000\n"] 40251 40000 [⟨">40000\n", '>', 40000⟩] (by decide)).2.2.1⟩

/-- Claim C7: every successful run of `check_xbt` performs at most one save of
the persisted price and at most one notification; and once a rule satisfies
both the match and the distance condition, the rules after it are never
evaluated (the loop result is that of the singleton list). -/
theorem C7_thm :
    (∀ (lines : List String) (price prev : ℚ) (evs : List Event),
      check_xbt lines price prev = .ok evs →
        evs.countP isSave ≤ 1 ∧ evs.countP isNotify ≤ 1)
    ∧ (∀ (price prev : ℚ) (r : PriceRule) (rs : List PriceRule),
        (r.matches price && safe_distance price prev) = true →
        runRulesEvents price prev (r :: rs) = runRulesEvents price prev [r]) := by
  constructor
  · intro lines price prev evs h
    obtain ⟨rules, -, hevs⟩ := exists_rules_of_check_ok h
    rw [hevs, runRulesEvents_eq]
    by_cases hs : safe_distance price prev = true
    · rw [if_pos hs]
      cases rules.find? (fun r => r.matches price) with
      | none => simp [List.countP_nil]
      | some r =>
        constructor <;> simp [List.countP_cons, isSave, isNotify]
    · rw [if_neg hs]
      simp [List.countP_nil]
  · intro price prev r rs hc
    rw [runRulesEvents, if_pos hc, runRulesEvents, if_pos hc]

/-- Claim C7, witness: the theorem applied to a firing run with rules file
`">40000\n"`, and to the loop with a firing head rule and a nonempty tail. -/
theorem C7_wit :
    ([Event.save (40251 : ℚ),
        Event.notify ⟨">40000\n", '>', 40000⟩ 40251].countP isSave ≤ 1
      ∧ [Event.save (40251 : ℚ),
          Event.notify ⟨">40000\n", '>', 40000⟩ 40251].countP isNotify ≤ 1)
    ∧ runRulesEvents 40251 40000 [⟨">40000\n", '>', 40000⟩, ⟨"<39000\n", '<', 39000⟩]
        = runRulesEvents 40251 40000 [⟨">40000\n", '>', 40000⟩] :=
  ⟨C7_thm.1 [">40000\n"] 40251 40000
      [Event.save 40251, Event.notify ⟨">40000\n", '>', 40000⟩ 40251] (by decide),
    C7_thm.2 40251 40000 ⟨">40000\n", '>', 40000⟩ [⟨"<39000\n", '<', 39000⟩] (by decide)⟩

/-- Claim C8: the evolved threshold-crossing detector (modelled from the spec,
see `computeThreshold`) computes 43000 with word "above" for current price
43500 against previous price 43000, and 43000 with word "below" for current
price 42500 against previous price 43000. -/
theorem C8_thm :
    computeThreshold 43500 43000 = (43000, "above")
    ∧ computeThreshold 42500 43000 = (43000, "below") := by
  have h1 : ⌊(43500 : ℚ) / 1000⌋ = 43 := by
    rw [Int.floor_eq_iff]
    norm_num
  have h2 : ⌈(42500 : ℚ) / 1000⌉ = 43 := by
    rw [Int.ceil_eq_iff]
    norm_num
  constructor
  · rw [computeThreshold, if_pos (by norm_num), h1]
    norm_num
  · rw [computeThreshold, if_neg (by norm_num), h2]
    norm_num
